import Mathlib

/-!
# Verification of the park-facilities analysis pipeline

Shallow embedding of `park-analysis-code.py`: a linear batch pipeline that
loads a delimited table, cleans it (fill missing `FacilityCount` with 0,
cast `ParkID` and `FacilityCount` to integer, drop exact duplicate rows),
and aggregates it (facility distribution, park diversity, facility
correlation), saving one chart image per analyzer.

Modelling conventions:
* A CSV cell is `Cell`: an integral numeric (`num`), an empty/missing cell
  (`missing`), or a non-numeric string (`str`).  Numeric cells are modelled
  as integers: the dataset's `ParkID` and `FacilityCount` values are counts
  and identifiers, and non-integral numerics play no role in any claim.
* A raw data frame is a header (column names) plus rows of cells; column
  access `df[c]` fails with a KeyError-class condition when `c` is not in
  the header, exactly as in pandas.
* Fallible pandas operations are modelled in `Except CleanError`:
  `astype(int)` raises a type-conversion-class error on a non-numeric
  string and on a missing value (pandas `IntCastingNaNError`).
* `drop_duplicates` keeps the first occurrence of each duplicated row.
* Chart rendering is pure I/O; each analyzer's `savefig` call is modelled
  by the list of file names it writes.
-/

/-- A single CSV cell: an integral numeric value, a missing value (NaN),
or a non-numeric string. -/
inductive Cell where
  | num (n : Int)
  | missing
  | str (s : String)
deriving DecidableEq, Repr

/-- A raw data frame: column names plus rows of cells (row-major). -/
structure RawTable where
  header : List String
  rows : List (List Cell)
deriving DecidableEq, Repr

/-- Errors surfaced by the pipeline: a missing column (pandas `KeyError`)
or a failed integer cast (pandas `ValueError`/`IntCastingNaNError`). -/
inductive CleanError where
  | keyError (col : String)
  | typeConversionError
deriving DecidableEq, Repr

/-- Index of a column name in a header (`df[c]` resolution): `none` models
the KeyError raised when the column is absent. -/
def colIdx : List String → String → Option Nat
  | [], _ => none
  | h :: hs, c => if h = c then some 0 else (colIdx hs c).map (· + 1)

/-- `fillna(0)` on a single cell: a missing value becomes the numeric 0,
every other cell is unchanged (line 24 of the source). -/
def fillna0 : Cell → Cell
  | .missing => .num 0
  | c => c

/-- `astype(int)` on a single cell: numeric cells succeed, a missing value
or a non-numeric string raises a type-conversion-class error
(lines 27-28 of the source). -/
def astypeInt : Cell → Except CleanError Int
  | .num n => .ok n
  | .missing => .error .typeConversionError
  | .str _ => .error .typeConversionError

/-- Error-propagating map over a list (column-wise `astype` and the
row-wise cleaning loop). -/
def mapE (f : α → Except CleanError β) : List α → Except CleanError (List β)
  | [] => .ok []
  | a :: as =>
    match f a with
    | .error e => .error e
    | .ok b =>
      match mapE f as with
      | .error e => .error e
      | .ok bs => .ok (b :: bs)

/-- `drop_duplicates()` with the default `keep='first'`: the first
occurrence of every row value is kept, later exact copies are dropped
(lines 31-36 of the source).  `List.dedup` keeps last occurrences, so it
is applied to the reversed list. -/
def dropDuplicates [DecidableEq α] (l : List α) : List α :=
  (l.reverse.dedup).reverse

/-- Cleaning of one row, given the resolved positions of the `ParkID` and
`FacilityCount` columns: fill a missing `FacilityCount` with 0, then cast
`ParkID` and `FacilityCount` to integer.  The source performs these steps
column-by-column (lines 24, 27, 28); mapping them row-by-row yields the
same table and, because both cast failures carry the same
`typeConversionError` value, the same `Except` result. -/
def cleanRow (iPID iFC : Nat) (r : List Cell) : Except CleanError (List Cell) :=
  let r1 := r.set iFC (fillna0 (r.getD iFC .missing))
  match astypeInt (r1.getD iPID .missing) with
  | .error e => .error e
  | .ok p =>
    let r2 := r1.set iPID (.num p)
    match astypeInt (r2.getD iFC .missing) with
    | .error e => .error e
    | .ok c => .ok (r2.set iFC (.num c))

/-- `load_and_clean_data` (minus its print diagnostics): resolve the
`FacilityCount` column (line 24) and the `ParkID` column (line 27) —
each a KeyError when absent — fill missing counts with 0, cast both
columns to integer, and drop exact duplicate rows. -/
def load_and_clean_data (t : RawTable) : Except CleanError RawTable :=
  match colIdx t.header "FacilityCount" with
  | none => .error (.keyError "FacilityCount")
  | some iFC =>
    match colIdx t.header "ParkID" with
    | none => .error (.keyError "ParkID")
    | some iPID =>
      match mapE (cleanRow iPID iFC) t.rows with
      | .error e => .error e
      | .ok rows => .ok ⟨t.header, dropDuplicates rows⟩

/-! ## Typed level: the Cleaned Table and the analyzers

The spec's Cleaned Table (section 3) is an ordered sequence of facility
records whose `ParkID` and `FacilityCount` are integers and whose `Name`
and `FacilityType` are strings.  The analyzers below are the embeddings of
`analyze_facility_distribution`, `analyze_parks_by_facility_diversity` and
`analyze_facility_correlation` over such records. -/

/-- A record of the Cleaned Table: `ParkID` (integer), `Name` (string),
`FacilityType` (string), `FacilityCount` (integer). -/
structure CRow where
  parkID : Int
  name : String
  facilityType : String
  facilityCount : Int
deriving DecidableEq, Repr

/-- A kernel-computable decision procedure for the lexicographic order on
strings (the library one is defined by well-founded recursion on byte
iterators and does not evaluate inside the kernel; this one recurses over
the character lists and decides the same order). -/
instance (priority := 2000) strLEDec : DecidableRel (fun a b : String => a ≤ b) :=
  fun a b =>
    have h : (¬ b.toList < a.toList) ↔ a ≤ b := (not_congr String.lt_iff_toList_lt).symm
    decidable_of_iff _ h

/-- `groupby(col, sort=True)` key order: the distinct values of a column,
sorted ascending (pandas sorts group keys by default). -/
def sortedKeys (l : List String) : List String :=
  List.insertionSort (· ≤ ·) l.dedup

/-- Comparison of key/value pairs by value, the order used by
`sort_values` on a Series. -/
def valLE {β : Type} [LinearOrder β] (a b : String × β) : Prop :=
  a.2 ≤ b.2

instance {β : Type} [LinearOrder β] : DecidableRel (valLE (β := β)) :=
  fun a b => inferInstanceAs (Decidable (a.2 ≤ b.2))

instance {β : Type} [LinearOrder β] : IsTotal (String × β) valLE :=
  ⟨fun a b => le_total a.2 b.2⟩

instance {β : Type} [LinearOrder β] : IsTrans (String × β) valLE :=
  ⟨fun _ _ _ h h' => le_trans h h'⟩

/-- `sort_values(ascending=False)`: pandas argsorts the values ascending
and reverses the resulting order (`nargsort` with `ascending=False`).
The default `kind='quicksort'` is documented as not stable, so the
relative order pandas gives entries with equal values is
implementation-defined; the stable `insertionSort` used here (numpy's
actual behaviour on arrays below its insertion-sort cutoff) is one
deterministic concretisation of it, and no theorem about arbitrary
tables relies on the concretisation's tie order. -/
def sortValuesDesc {β : Type} [LinearOrder β] (l : List (String × β)) :
    List (String × β) :=
  (List.insertionSort valLE l).reverse

/-- Total `FacilityCount` of the rows of one facility type. -/
def typeSum (t : List CRow) (f : String) : Int :=
  ((t.filter (fun r => r.facilityType = f)).map (·.facilityCount)).sum

/-- `df.groupby('FacilityType')['FacilityCount'].sum()`: one entry per
distinct facility type (keys sorted ascending), holding the summed count. -/
def groupSumByType (t : List CRow) : List (String × Int) :=
  (sortedKeys (t.map (·.facilityType))).map (fun k => (k, typeSum t k))

/-- `analyze_facility_distribution` (line 51): facility types with their
summed counts, sorted descending by count. -/
def analyze_facility_distribution (t : List CRow) : List (String × Int) :=
  sortValuesDesc (groupSumByType t)

/-- Number of distinct facility types among the rows of one park
(`nunique` per group). -/
def diversity (t : List CRow) (n : String) : Nat :=
  ((t.filter (fun r => r.name = n)).map (·.facilityType)).dedup.length

/-- `df.groupby('Name')['FacilityType'].nunique()`: one entry per distinct
park name (keys sorted ascending), holding the distinct-type count. -/
def groupNuniqueByName (t : List CRow) : List (String × Nat) :=
  (sortedKeys (t.map (·.name))).map (fun k => (k, diversity t k))

/-- `analyze_parks_by_facility_diversity` (line 76): park names with their
distinct-facility-type counts, sorted descending by count. -/
def analyze_parks_by_facility_diversity (t : List CRow) : List (String × Nat) :=
  sortValuesDesc (groupNuniqueByName t)

/-! ## Correlation analyzer

`analyze_facility_correlation` pivots the cleaned table into a
park-by-facility-type matrix of summed counts (absent combinations filled
with 0) and computes the Pearson correlation between facility-type
columns.  All pivot entries are integers, so the correlation is computed
here in the standard integer computational form: for columns x, y of
length n,

  r = (n·Σxy − Σx·Σy) / (√(n·Σx² − (Σx)²) · √(n·Σy² − (Σy)²)),

which is Σ(x−x̄)(y−ȳ) / (√Σ(x−x̄)² · √Σ(y−ȳ)²) with numerator and
denominator both carrying the same n² scale factor.  The float NaN that
IEEE 0/0 produces for a zero-variance column is modelled by `Option`:
`none` is NaN, and it arises exactly when either column has zero variance,
since a constant column also has zero covariance with every column. -/

/-- The pivot row labels: distinct park names, sorted (pandas pivot_table
sorts its index). -/
def parkNames (t : List CRow) : List String :=
  List.insertionSort (· ≤ ·) (t.map (·.name)).dedup

/-- One entry of the pivot table: total `FacilityCount` of park `n` for
facility type `f`, 0 when the combination is absent (`fill_value=0`). -/
def pivotEntry (t : List CRow) (n f : String) : Int :=
  ((t.filter (fun r => r.name = n ∧ r.facilityType = f)).map (·.facilityCount)).sum

/-- The pivot column of facility type `f`: its summed count for every park,
in park-name order. -/
def pivotColumn (t : List CRow) (f : String) : List Int :=
  (parkNames t).map (fun n => pivotEntry t n f)

/-- Scaled Pearson covariance numerator of two equal-length integer
columns: n·Σxy − Σx·Σy, which is n²·cov(x, y). -/
def covNum (xs ys : List Int) : Int :=
  (xs.length : Int) * (List.zipWith (· * ·) xs ys).sum - xs.sum * ys.sum

/-- Scaled variance numerator of a column: n·Σx² − (Σx)², zero exactly for
a constant column (or one with fewer than two entries). -/
def varNum (xs : List Int) : Int := covNum xs xs

/-- Pearson correlation of two integer columns, `none` standing for the
float NaN that 0/0 produces exactly when either variance is zero. -/
noncomputable def pearson (xs ys : List Int) : Option ℝ :=
  if varNum xs = 0 ∨ varNum ys = 0 then none
  else some ((covNum xs ys : ℝ) /
    (Real.sqrt ((varNum xs : Int) : ℝ) * Real.sqrt ((varNum ys : Int) : ℝ)))

/-- `analyze_facility_correlation` (lines 100-109): entry of the
correlation matrix for the pair of facility types `(f, g)`, computed over
the park-by-facility-type pivot. -/
noncomputable def analyze_facility_correlation (t : List CRow) (f g : String) :
    Option ℝ :=
  pearson (pivotColumn t f) (pivotColumn t g)

/-! ## Saved chart artifacts

Each analyzer ends in exactly one `savefig` call with a fixed relative
file name (lines 64, 88, 116); `main` runs the three analyzers once each. -/

/-- File saved by `analyze_facility_distribution` (line 64). -/
def distributionArtifacts : List String := ["facility_distribution.png"]

/-- File saved by `analyze_parks_by_facility_diversity` (line 88). -/
def diversityArtifacts : List String := ["park_diversity.png"]

/-- File saved by `analyze_facility_correlation` (line 116). -/
def correlationArtifacts : List String := ["facility_correlation.png"]

/-- All image files written by a successful run of `main`, in order. -/
def mainArtifacts : List String :=
  distributionArtifacts ++ diversityArtifacts ++ correlationArtifacts

/-! ## Raw-level aggregation access

`main` feeds the cleaned frame straight into the analyzers; the first thing
`df.groupby(key)[val]` does is resolve both column names, raising the same
KeyError-class condition as any other column access when one is absent
(the failure mode of a schema-deficient input). -/

/-- Column resolution performed by `df.groupby(key)[val]`: the pair of
resolved positions, or the KeyError for the first absent name. -/
def groupbyColumns (t : RawTable) (key val : String) :
    Except CleanError (Nat × Nat) :=
  match colIdx t.header key with
  | none => .error (.keyError key)
  | some i =>
    match colIdx t.header val with
    | none => .error (.keyError val)
    | some j => .ok (i, j)

/-- Integer value of a cell of the cleaned count column.  On the output of
`load_and_clean_data` every `ParkID`/`FacilityCount` cell is numeric (see
`load_and_clean_data_invariants`), so the non-numeric branches are never
reached there. -/
def cellVal : Cell → Int
  | .num n => n
  | .missing => 0
  | .str _ => 0

/-- Total of the count column (at position `iFC`) over the raw rows whose
facility-type cell (at position `iFT`) equals `k`: the raw-level reading of
one Facility Distribution sum. -/
def rawTypeSum (rows : List (List Cell)) (iFT iFC : Nat) (k : Cell) : Int :=
  ((rows.filter (fun row => row.getD iFT .missing = k)).map
    (fun row => cellVal (row.getD iFC .missing))).sum

/-! ## Auxiliary list lemmas -/

theorem getD_set_self {α : Type} (l : List α) (i : Nat) (a d : α)
    (h : i < l.length) : (l.set i a).getD i d = a := by
  induction l generalizing i with
  | nil => simp at h
  | cons x xs ih =>
    cases i with
    | zero => simp
    | succ n => simpa using ih n (by simpa using h)

theorem getD_set_ne {α : Type} (l : List α) (i j : Nat) (a d : α)
    (h : i ≠ j) : (l.set i a).getD j d = l.getD j d := by
  induction l generalizing i j with
  | nil => simp
  | cons x xs ih =>
    cases i with
    | zero =>
      cases j with
      | zero => exact absurd rfl h
      | succ m => simp
    | succ n =>
      cases j with
      | zero => simp
      | succ m => simpa using ih n m (fun hnm => h (by simp [hnm]))

theorem getD_of_length_le {α : Type} (l : List α) (i : Nat) (d : α)
    (h : l.length ≤ i) : l.getD i d = d := by
  induction l generalizing i with
  | nil => simp
  | cons x xs ih =>
    cases i with
    | zero => simp at h
    | succ n => simpa using ih n (by simpa using h)

theorem lt_length_of_getD_ne {α : Type} (l : List α) (i : Nat) (d : α)
    (h : l.getD i d ≠ d) : i < l.length := by
  by_contra hge
  exact h (getD_of_length_le l i d (le_of_not_lt hge))

theorem set_of_getD {α : Type} (l : List α) (i : Nat) (a d : α)
    (hlt : i < l.length) (h : l.getD i d = a) : l.set i a = l := by
  induction l generalizing i with
  | nil => simp at hlt
  | cons x xs ih =>
    cases i with
    | zero => simp_all
    | succ n =>
      simp only [List.set_cons_succ, List.cons.injEq, true_and]
      exact ih n (by simpa using hlt) (by simpa using h)

theorem set_of_length_le {α : Type} (l : List α) (i : Nat) (a : α)
    (h : l.length ≤ i) : l.set i a = l := by
  induction l generalizing i with
  | nil => simp
  | cons x xs ih =>
    cases i with
    | zero => simp at h
    | succ n =>
      simp only [List.set_cons_succ, List.cons.injEq, true_and]
      exact ih n (by simpa using h)

/-! ## Facts about column resolution -/

theorem colIdx_getD {hd : List String} {c : String} {i : Nat}
    (h : colIdx hd c = some i) : hd.getD i "" = c := by
  induction hd generalizing i with
  | nil => simp [colIdx] at h
  | cons x xs ih =>
    by_cases hx : x = c
    · simp [colIdx, hx] at h
      simp [← h, hx]
    · simp [colIdx, hx] at h
      obtain ⟨j, hj, rfl⟩ := h
      simpa using ih hj

theorem colIdx_ne {hd : List String} {c c' : String} {i j : Nat}
    (hc : colIdx hd c = some i) (hc' : colIdx hd c' = some j)
    (hne : c ≠ c') : i ≠ j := by
  intro hij
  exact hne (by rw [← colIdx_getD hc, ← colIdx_getD hc', hij])

theorem colIdx_eq_none {hd : List String} {c : String} (h : c ∉ hd) :
    colIdx hd c = none := by
  induction hd with
  | nil => rfl
  | cons x xs ih =>
    simp only [List.mem_cons, not_or] at h
    simp [colIdx, Ne.symm h.1, ih h.2]

theorem colIdx_isSome {hd : List String} {c : String} (h : c ∈ hd) :
    ∃ i, colIdx hd c = some i := by
  induction hd with
  | nil => simp at h
  | cons x xs ih =>
    by_cases hx : x = c
    · exact ⟨0, by simp [colIdx, hx]⟩
    · obtain ⟨i, hi⟩ := ih (by simpa [Ne.symm hx] using h)
      exact ⟨i + 1, by simp [colIdx, hx, hi]⟩

/-! ## Facts about `mapE`, `dropDuplicates`, `astypeInt`, `cleanRow` -/

theorem mapE_ok_mem {f : α → Except CleanError β} {l : List α} {l' : List β}
    (h : mapE f l = .ok l') : ∀ a ∈ l, ∃ b ∈ l', f a = .ok b := by
  induction l generalizing l' with
  | nil => simp
  | cons x xs ih =>
    intro a ha
    simp only [mapE] at h
    cases hx : f x with
    | error e => rw [hx] at h; exact absurd h (by simp)
    | ok b =>
      rw [hx] at h
      cases hxs : mapE f xs with
      | error e => rw [hxs] at h; exact absurd h (by simp)
      | ok bs =>
        rw [hxs] at h
        simp only [Except.ok.injEq] at h
        subst h
        rcases List.mem_cons.1 ha with rfl | ha'
        · exact ⟨b, by simp, hx⟩
        · obtain ⟨b', hb', hfb'⟩ := ih hxs a ha'
          exact ⟨b', by simp [hb'], hfb'⟩

theorem mapE_ok_elems {f : α → Except CleanError β} {l : List α} {l' : List β}
    (h : mapE f l = .ok l') : ∀ b ∈ l', ∃ a ∈ l, f a = .ok b := by
  induction l generalizing l' with
  | nil =>
    simp only [mapE, Except.ok.injEq] at h
    subst h
    simp
  | cons x xs ih =>
    intro b hb
    simp only [mapE] at h
    cases hx : f x with
    | error e => rw [hx] at h; exact absurd h (by simp)
    | ok b₀ =>
      rw [hx] at h
      cases hxs : mapE f xs with
      | error e => rw [hxs] at h; exact absurd h (by simp)
      | ok bs =>
        rw [hxs] at h
        simp only [Except.ok.injEq] at h
        subst h
        rcases List.mem_cons.1 hb with rfl | hb'
        · exact ⟨x, by simp, hx⟩
        · obtain ⟨a, ha, hfa⟩ := ih hxs b hb'
          exact ⟨a, by simp [ha], hfa⟩

theorem mapE_error_of_mem {f : α → Except CleanError β} {l : List α} {a : α}
    {ea : CleanError} (hfa : f a = .error ea) (ha : a ∈ l)
    (huniq : ∀ x e', f x = .error e' → e' = ea) : mapE f l = .error ea := by
  induction l with
  | nil => simp at ha
  | cons x xs ih =>
    simp only [mapE]
    cases hx : f x with
    | error e => simp [huniq x e hx]
    | ok b =>
      rcases List.mem_cons.1 ha with rfl | ha'
      · rw [hfa] at hx; exact absurd hx (by simp)
      · rw [ih ha']

theorem dropDuplicates_nodup {α : Type} [DecidableEq α] (l : List α) :
    (dropDuplicates l).Nodup :=
  List.nodup_reverse.2 (List.nodup_dedup _)

theorem mem_dropDuplicates {α : Type} [DecidableEq α] {a : α} {l : List α} :
    a ∈ dropDuplicates l ↔ a ∈ l := by
  simp [dropDuplicates]

theorem astypeInt_ok {c : Cell} {n : Int} (h : astypeInt c = .ok n) :
    c = .num n := by
  cases c with
  | num m =>
    simp only [astypeInt, Except.ok.injEq] at h
    rw [h]
  | missing => simp [astypeInt] at h
  | str s => simp [astypeInt] at h

theorem astypeInt_error_eq {c : Cell} {e : CleanError}
    (h : astypeInt c = .error e) : e = .typeConversionError := by
  cases c with
  | num m => simp [astypeInt] at h
  | missing => simp [astypeInt] at h; exact h.symm
  | str s => simp [astypeInt] at h; exact h.symm


theorem cleanRow_error_eq {iPID iFC : Nat} {r : List Cell} {e : CleanError}
    (h : cleanRow iPID iFC r = .error e) : e = .typeConversionError := by
  simp only [cleanRow] at h
  split at h
  · simp only [Except.error.injEq] at h
    subst h
    exact astypeInt_error_eq (by assumption)
  · split at h
    · simp only [Except.error.injEq] at h
      subst h
      exact astypeInt_error_eq (by assumption)
    · exact absurd h (by simp)

theorem cleanRow_ok_cells {iPID iFC : Nat} {r r' : List Cell}
    (h : cleanRow iPID iFC r = .ok r') :
    (∃ n, r'.getD iPID .missing = Cell.num n) ∧
    (∃ m, r'.getD iFC .missing = Cell.num m) := by
  simp only [cleanRow] at h
  split at h
  · exact absurd h (by simp)
  · rename_i p hp
    split at h
    · exact absurd h (by simp)
    · rename_i c hc
      simp only [Except.ok.injEq] at h
      subst h
      have hp' := astypeInt_ok hp
      have hc' := astypeInt_ok hc
      have hFClt : iFC <
          ((r.set iFC (fillna0 (r.getD iFC .missing))).set iPID (.num p)).length :=
        lt_length_of_getD_ne _ _ Cell.missing (by rw [hc']; simp)
      constructor
      · by_cases hij : iPID = iFC
        · subst hij
          exact ⟨c, getD_set_self _ _ _ _ hFClt⟩
        · have hPIDlt : iPID < (r.set iFC (fillna0 (r.getD iFC .missing))).length :=
            lt_length_of_getD_ne _ _ Cell.missing (by rw [hp']; simp)
          refine ⟨p, ?_⟩
          rw [getD_set_ne _ _ _ _ _ (fun hh => hij hh.symm),
            getD_set_self _ _ _ _ hPIDlt]
      · exact ⟨c, getD_set_self _ _ _ _ hFClt⟩

theorem cleanRow_missing_fc {iPID iFC : Nat} {r r' : List Cell}
    (hm : r.getD iFC .missing = .missing)
    (h : cleanRow iPID iFC r = .ok r') : r' = r.set iFC (Cell.num 0) := by
  simp only [cleanRow, hm, fillna0] at h
  split at h
  · exact absurd h (by simp)
  · rename_i p hp
    split at h
    · exact absurd h (by simp)
    · rename_i c hc
      simp only [Except.ok.injEq] at h
      subst h
      have hp' := astypeInt_ok hp
      have hc' := astypeInt_ok hc
      by_cases hlt : iFC < r.length
      · have hPIDlt : iPID < (r.set iFC (Cell.num 0)).length :=
          lt_length_of_getD_ne _ _ Cell.missing (by rw [hp']; simp)
        have hr2 : (r.set iFC (Cell.num 0)).set iPID (.num p) = r.set iFC (Cell.num 0) :=
          set_of_getD _ _ _ .missing hPIDlt hp'
        rw [hr2] at hc' ⊢
        have h0 : (r.set iFC (Cell.num 0)).getD iFC .missing = Cell.num 0 :=
          getD_set_self _ _ _ _ (by simpa using hlt)
        rw [h0] at hc'
        have hc0 : c = 0 := by
          simpa using hc'.symm
        rw [hc0, List.set_set]
      · exfalso
        have hge : r.length ≤ iFC := le_of_not_lt hlt
        have hr1 : r.set iFC (Cell.num 0) = r := set_of_length_le _ _ _ hge
        rw [hr1] at hc'
        by_cases hij : iPID = iFC
        · rw [hr1, hij, getD_of_length_le _ _ _ hge] at hp'
          exact absurd hp' (by simp)
        · rw [getD_set_ne _ _ _ _ _ hij,
            getD_of_length_le _ _ _ hge] at hc'
          exact absurd hc' (by simp)

theorem cleanRow_str_not_ok {iPID iFC : Nat} {r : List Cell}
    (hs : (∃ s, r.getD iPID .missing = .str s) ∨ (∃ s, r.getD iFC .missing = .str s)) :
    ∀ x, cleanRow iPID iFC r ≠ .ok x := by
  intro x hok
  simp only [cleanRow] at hok
  split at hok
  · exact absurd hok (by simp)
  · rename_i p hp
    have hp' := astypeInt_ok hp
    rcases hs with ⟨s, hcell⟩ | ⟨s, hcell⟩
    · -- the non-numeric string sits in the ParkID column
      by_cases hij : iPID = iFC
      · subst hij
        have hlt : iPID < r.length := lt_length_of_getD_ne _ _ Cell.missing (by rw [hcell]; simp)
        rw [getD_set_self _ _ _ _ hlt, hcell] at hp'
        simp [fillna0] at hp'
      · rw [getD_set_ne _ _ _ _ _ (fun hh => hij hh.symm), hcell] at hp'
        simp at hp'
    · -- the non-numeric string sits in the FacilityCount column
      split at hok
      · exact absurd hok (by simp)
      · rename_i c hc
        have hc' := astypeInt_ok hc
        have hlt : iFC < r.length := lt_length_of_getD_ne _ _ Cell.missing (by rw [hcell]; simp)
        by_cases hij : iPID = iFC
        · subst hij
          rw [getD_set_self _ _ _ _ hlt, hcell] at hp'
          simp [fillna0] at hp'
        · rw [getD_set_ne _ _ _ _ _ hij,
            getD_set_self _ _ _ _ hlt, hcell] at hc'
          simp [fillna0] at hc'

theorem mapE_ok_of_all {f : α → Except CleanError β} {l : List α}
    (h : ∀ a ∈ l, ∃ b, f a = .ok b) : ∃ l', mapE f l = .ok l' := by
  induction l with
  | nil => exact ⟨[], rfl⟩
  | cons x xs ih =>
    obtain ⟨b, hb⟩ := h x (by simp)
    obtain ⟨bs, hbs⟩ := ih (fun a ha => h a (by simp [ha]))
    exact ⟨b :: bs, by simp [mapE, hb, hbs]⟩

theorem load_ok_elim {t t' : RawTable} (h : load_and_clean_data t = .ok t') :
    ∃ iFC iPID rows, colIdx t.header "FacilityCount" = some iFC ∧
      colIdx t.header "ParkID" = some iPID ∧
      mapE (cleanRow iPID iFC) t.rows = .ok rows ∧
      t' = ⟨t.header, dropDuplicates rows⟩ := by
  unfold load_and_clean_data at h
  split at h
  · exact absurd h (by simp)
  · rename_i iFC hFC
    split at h
    · exact absurd h (by simp)
    · rename_i iPID hPID
      split at h
      · exact absurd h (by simp)
      · rename_i rows hrows
        simp only [Except.ok.injEq] at h
        exact ⟨iFC, iPID, rows, hFC, hPID, hrows, h.symm⟩

theorem rawTypeSum_cons (x : List Cell) (xs : List (List Cell))
    (iFT iFC : Nat) (k : Cell) :
    rawTypeSum (x :: xs) iFT iFC k =
      (if x.getD iFT .missing = k then cellVal (x.getD iFC .missing) else 0) +
        rawTypeSum xs iFT iFC k := by
  simp only [rawTypeSum, List.filter_cons]
  split <;> simp_all

theorem rawTypeSum_erase (l : List (List Cell)) (row : List Cell)
    (iFT iFC : Nat) (k : Cell) (h0 : cellVal (row.getD iFC .missing) = 0) :
    rawTypeSum l iFT iFC k = rawTypeSum (l.erase row) iFT iFC k := by
  induction l with
  | nil => rfl
  | cons x xs ih =>
    by_cases hx : x = row
    · subst hx
      rw [List.erase_cons_head, rawTypeSum_cons, h0]
      simp
    · rw [List.erase_cons_tail (by simpa using hx),
        rawTypeSum_cons, rawTypeSum_cons, ih]

theorem cleanRow_ok_of {iPID iFC : Nat} {r : List Cell}
    (hp : ∃ n, r.getD iPID .missing = Cell.num n)
    (hlen : iFC < r.length)
    (hc : (∃ m, r.getD iFC .missing = Cell.num m) ∨ r.getD iFC .missing = .missing) :
    ∃ r', cleanRow iPID iFC r = .ok r' := by
  obtain ⟨n, hn⟩ := hp
  have hw : ∃ w, fillna0 (r.getD iFC .missing) = Cell.num w := by
    rcases hc with ⟨m, hm⟩ | hm
    · exact ⟨m, by rw [hm]; simp [fillna0]⟩
    · exact ⟨0, by rw [hm]; simp [fillna0]⟩
  obtain ⟨w, hw⟩ := hw
  by_cases hij : iPID = iFC
  · subst hij
    simp only [cleanRow, hw]
    have h1 : (r.set iPID (Cell.num w)).getD iPID .missing = Cell.num w :=
      getD_set_self _ _ _ _ (by simpa using hlen)
    rw [h1]
    simp only [astypeInt]
    rw [List.set_set, h1]
    exact ⟨_, rfl⟩
  · simp only [cleanRow, hw]
    have h1 : (r.set iFC (Cell.num w)).getD iPID .missing = Cell.num n := by
      rw [getD_set_ne _ _ _ _ _ (fun hh => hij hh.symm), hn]
    have h2 : ((r.set iFC (Cell.num w)).set iPID (Cell.num n)).getD iFC .missing =
        Cell.num w := by
      rw [getD_set_ne _ _ _ _ _ hij, getD_set_self _ _ _ _ (by simpa using hlen)]
    rw [h1]
    simp only [astypeInt]
    rw [h2]
    exact ⟨_, rfl⟩

/-! ## Facts about the descending value sort -/

theorem mem_sortValuesDesc {β : Type} [LinearOrder β] {p : String × β}
    {l : List (String × β)} : p ∈ sortValuesDesc l ↔ p ∈ l := by
  unfold sortValuesDesc
  rw [List.mem_reverse]
  exact List.mem_insertionSort valLE

theorem sortValuesDesc_perm {β : Type} [LinearOrder β]
    (l : List (String × β)) : (sortValuesDesc l).Perm l :=
  (List.reverse_perm _).trans (List.perm_insertionSort _ _)

theorem sortValuesDesc_sorted {β : Type} [LinearOrder β]
    (l : List (String × β)) :
    (sortValuesDesc l).Pairwise (fun a b => b.2 ≤ a.2) := by
  unfold sortValuesDesc
  rw [List.pairwise_reverse]
  exact List.sorted_insertionSort valLE l

/-! ## Facts about the grouped aggregations -/

theorem sortedKeys_sorted (l : List String) :
    (sortedKeys l).Pairwise (· ≤ ·) :=
  List.sorted_insertionSort _ _

theorem sortedKeys_nodup (l : List String) : (sortedKeys l).Nodup :=
  (List.perm_insertionSort _ _).symm.nodup (List.nodup_dedup l)

theorem sortedKeys_perm (l : List String) : (sortedKeys l).Perm l.dedup :=
  List.perm_insertionSort _ _

theorem groupSumByType_mem {t : List CRow} {p : String × Int}
    (h : p ∈ groupSumByType t) : p.2 = typeSum t p.1 := by
  unfold groupSumByType at h
  obtain ⟨k, _, rfl⟩ := List.mem_map.1 h
  rfl

theorem groupSumByType_keys (t : List CRow) :
    (groupSumByType t).map Prod.fst = sortedKeys (t.map (·.facilityType)) := by
  unfold groupSumByType
  rw [List.map_map]
  exact List.map_id _


theorem groupNuniqueByName_mem {t : List CRow} {p : String × Nat}
    (h : p ∈ groupNuniqueByName t) : p.2 = diversity t p.1 := by
  unfold groupNuniqueByName at h
  obtain ⟨k, _, rfl⟩ := List.mem_map.1 h
  rfl

theorem groupNuniqueByName_keys (t : List CRow) :
    (groupNuniqueByName t).map Prod.fst = sortedKeys (t.map (·.name)) := by
  unfold groupNuniqueByName
  rw [List.map_map]
  exact List.map_id _

/-! ## Claim theorems: the analyzers' functional properties -/

/-- C2: for every cleaned table, `analyze_facility_distribution` assigns to
each facility type exactly the sum of `FacilityCount` over the rows of that
type; its keys are exactly the distinct facility types of the table; and
its entries are in descending order of summed count. -/
theorem analyze_facility_distribution_correct (t : List CRow) :
    (∀ p ∈ analyze_facility_distribution t, p.2 = typeSum t p.1) ∧
    ((analyze_facility_distribution t).map Prod.fst).Perm
      ((t.map (fun r => r.facilityType)).dedup) ∧
    (analyze_facility_distribution t).Pairwise (fun a b => b.2 ≤ a.2) := by
  refine ⟨?_, ?_, sortValuesDesc_sorted _⟩
  · intro p hp
    exact groupSumByType_mem (mem_sortValuesDesc.1 hp)
  · have h1 := (sortValuesDesc_perm (groupSumByType t)).map Prod.fst
    rw [groupSumByType_keys] at h1
    exact h1.trans (sortedKeys_perm _)

/-- Concrete run of the distribution analyzer: Playground rows total 5,
Tennis rows total 1, and the result lists Playground first. -/
theorem facility_distribution_eval :
    analyze_facility_distribution
        [⟨1, "P", "Playground", 3⟩, ⟨2, "Q", "Tennis", 1⟩, ⟨3, "P", "Playground", 2⟩] =
      [("Playground", 5), ("Tennis", 1)] := by decide

/-- C3: for every cleaned table, `analyze_parks_by_facility_diversity`
assigns to each park name exactly the number of distinct facility types
among that park's rows; its keys are exactly the distinct park names; and
its entries are in descending order of that count. -/
theorem analyze_parks_by_facility_diversity_correct (t : List CRow) :
    (∀ p ∈ analyze_parks_by_facility_diversity t, p.2 = diversity t p.1) ∧
    ((analyze_parks_by_facility_diversity t).map Prod.fst).Perm
      ((t.map (fun r => r.name)).dedup) ∧
    (analyze_parks_by_facility_diversity t).Pairwise (fun a b => b.2 ≤ a.2) := by
  refine ⟨?_, ?_, sortValuesDesc_sorted _⟩
  · intro p hp
    exact groupNuniqueByName_mem (mem_sortValuesDesc.1 hp)
  · have h1 := (sortValuesDesc_perm (groupNuniqueByName t)).map Prod.fst
    rw [groupNuniqueByName_keys] at h1
    exact h1.trans (sortedKeys_perm _)

/-- Concrete run of the diversity analyzer: park P offers two distinct
facility types, park Q one. -/
theorem park_diversity_eval :
    analyze_parks_by_facility_diversity
        [⟨1, "P", "a", 1⟩, ⟨2, "P", "b", 1⟩, ⟨3, "Q", "a", 1⟩] =
      [("P", 2), ("Q", 1)] := by decide

/-- C6 counterexample: in the table whose first row has facility type "a"
and whose second has "b", both types total 5, yet the distribution lists
("b", 5) before ("a", 5): `groupby` orders the tied groups alphabetically
and the descending value sort reverses that order, so the group occurring
first in row order comes out last, contradicting the claimed
original-row-order tie-break. -/
theorem facility_distribution_tie_counterexample :
    (([⟨1, "p", "a", 5⟩, ⟨2, "q", "b", 5⟩] : List CRow).map (·.facilityType))
        = ["a", "b"] ∧
    typeSum [⟨1, "p", "a", 5⟩, ⟨2, "q", "b", 5⟩] "a" =
      typeSum [⟨1, "p", "a", 5⟩, ⟨2, "q", "b", 5⟩] "b" ∧
    analyze_facility_distribution [⟨1, "p", "a", 5⟩, ⟨2, "q", "b", 5⟩] =
      [("b", 5), ("a", 5)] := by decide

theorem typeSum_perm {t₁ t₂ : List CRow} (h : t₁.Perm t₂) (f : String) :
    typeSum t₁ f = typeSum t₂ f :=
  ((h.filter _).map _).sum_eq

theorem sortedKeys_perm_eq {l₁ l₂ : List String} (h : l₁.Perm l₂) :
    sortedKeys l₁ = sortedKeys l₂ :=
  List.eq_of_perm_of_sorted
    ((sortedKeys_perm l₁).trans (h.dedup.trans (sortedKeys_perm l₂).symm))
    (sortedKeys_sorted l₁) (sortedKeys_sorted l₂)

theorem groupSumByType_perm {t₁ t₂ : List CRow} (h : t₁.Perm t₂) :
    groupSumByType t₁ = groupSumByType t₂ := by
  unfold groupSumByType
  rw [sortedKeys_perm_eq (h.map _)]
  have hf : (fun k => (k, typeSum t₁ k)) = fun k => (k, typeSum t₂ k) :=
    funext fun k => by rw [typeSum_perm h]
  rw [hf]

/-- C6 (amended): the tied-entry order cannot be the table's row order:
the Facility Distribution is invariant under every permutation of the
cleaned table's rows, because `groupby` replaces row order by the
ascending alphabetical order of the group keys before the value sort
runs; which order pandas then gives entries with equal totals it leaves
to its sort implementation (the default quicksort is documented as not
stable).  On the concrete tied two-type instance — deterministic at this
size — the row order with "b" first produces the same output as the
counterexample's, the tied entries in descending alphabetical order. -/
theorem facility_distribution_row_order_independent :
    (∀ t₁ t₂ : List CRow, t₁.Perm t₂ →
      analyze_facility_distribution t₁ = analyze_facility_distribution t₂) ∧
    analyze_facility_distribution [⟨2, "q", "b", 5⟩, ⟨1, "p", "a", 5⟩] =
      [("b", 5), ("a", 5)] := by
  constructor
  · intro t₁ t₂ h
    unfold analyze_facility_distribution
    rw [groupSumByType_perm h]
  · decide

/-! ## Claim theorems: cleaning invariants and failure modes -/

/-- C1: whenever `load_and_clean_data` succeeds, the cleaned table has no
two fully identical rows, and every row's `ParkID` and `FacilityCount`
cells hold integers (in particular no `FacilityCount` is missing). -/
theorem load_and_clean_data_invariants (t t' : RawTable)
    (h : load_and_clean_data t = .ok t') :
    t'.rows.Nodup ∧
    ∃ iPID iFC, colIdx t.header "ParkID" = some iPID ∧
      colIdx t.header "FacilityCount" = some iFC ∧
      ∀ r ∈ t'.rows,
        (∃ n, r.getD iPID .missing = Cell.num n) ∧
        (∃ m, r.getD iFC .missing = Cell.num m) := by
  obtain ⟨iFC, iPID, rows, hFC, hPID, hrows, rfl⟩ := load_ok_elim h
  refine ⟨dropDuplicates_nodup _, iPID, iFC, hPID, hFC, ?_⟩
  intro r hr
  obtain ⟨a, _, hfa⟩ := mapE_ok_elems hrows r (mem_dropDuplicates.1 hr)
  exact cleanRow_ok_cells hfa

/-- C1 witness: a concrete table with two identical rows, each with a
missing count, cleans to a single row with integer cells. -/
theorem load_and_clean_data_invariants_witness :
    (RawTable.mk ["ParkID", "Name", "FacilityType", "FacilityCount"]
        [[Cell.num 1, Cell.str "Stanley", Cell.str "Playground", Cell.num 0]]).rows.Nodup ∧
    ∃ iPID iFC,
      colIdx ["ParkID", "Name", "FacilityType", "FacilityCount"] "ParkID" = some iPID ∧
      colIdx ["ParkID", "Name", "FacilityType", "FacilityCount"] "FacilityCount" = some iFC ∧
      ∀ r ∈ (RawTable.mk ["ParkID", "Name", "FacilityType", "FacilityCount"]
          [[Cell.num 1, Cell.str "Stanley", Cell.str "Playground", Cell.num 0]]).rows,
        (∃ n, r.getD iPID .missing = Cell.num n) ∧
        (∃ m, r.getD iFC .missing = Cell.num m) :=
  load_and_clean_data_invariants
    ⟨["ParkID", "Name", "FacilityType", "FacilityCount"],
      [[Cell.num 1, Cell.str "Stanley", Cell.str "Playground", Cell.missing],
       [Cell.num 1, Cell.str "Stanley", Cell.str "Playground", Cell.missing]]⟩
    ⟨["ParkID", "Name", "FacilityType", "FacilityCount"],
      [[Cell.num 1, Cell.str "Stanley", Cell.str "Playground", Cell.num 0]]⟩
    (by rfl)

/-- C7: a row whose `FacilityCount` cell is missing is kept by cleaning
with that cell replaced by the integer 0, and removing the filled row from
the cleaned table changes no facility type's total — it contributes 0 to
the Facility Distribution sums. -/
theorem fillna_retained_contributes_zero (t t' : RawTable) (r : List Cell)
    (iFC : Nat) (hFC : colIdx t.header "FacilityCount" = some iFC)
    (hr : r ∈ t.rows) (hm : r.getD iFC .missing = .missing)
    (h : load_and_clean_data t = .ok t') :
    (r.set iFC (Cell.num 0)) ∈ t'.rows ∧
    ∀ iFT k, rawTypeSum t'.rows iFT iFC k =
      rawTypeSum (t'.rows.erase (r.set iFC (Cell.num 0))) iFT iFC k := by
  obtain ⟨iFC', iPID, rows, hFC', hPID, hrows, rfl⟩ := load_ok_elim h
  rw [hFC] at hFC'
  obtain rfl : iFC = iFC' := Option.some.inj hFC'
  obtain ⟨r', hr'mem, hfa⟩ := mapE_ok_mem hrows r hr
  obtain rfl : r' = r.set iFC (Cell.num 0) := cleanRow_missing_fc hm hfa
  constructor
  · exact mem_dropDuplicates.2 hr'mem
  · intro iFT k
    apply rawTypeSum_erase
    by_cases hlt : iFC < r.length
    · rw [getD_set_self _ _ _ _ hlt]; rfl
    · rw [set_of_length_le _ _ _ (le_of_not_lt hlt),
        getD_of_length_le _ _ _ (le_of_not_lt hlt)]; rfl

/-- C7 witness: a concrete single-row table with a missing count. -/
theorem fillna_retained_contributes_zero_witness :
    ([Cell.num 1, Cell.str "S", Cell.str "Playground", Cell.missing].set 3 (Cell.num 0)) ∈
      (RawTable.mk ["ParkID", "Name", "FacilityType", "FacilityCount"]
        [[Cell.num 1, Cell.str "S", Cell.str "Playground", Cell.num 0]]).rows ∧
    ∀ iFT k, rawTypeSum (RawTable.mk ["ParkID", "Name", "FacilityType", "FacilityCount"]
        [[Cell.num 1, Cell.str "S", Cell.str "Playground", Cell.num 0]]).rows iFT 3 k =
      rawTypeSum ((RawTable.mk ["ParkID", "Name", "FacilityType", "FacilityCount"]
        [[Cell.num 1, Cell.str "S", Cell.str "Playground", Cell.num 0]]).rows.erase
          ([Cell.num 1, Cell.str "S", Cell.str "Playground", Cell.missing].set 3 (Cell.num 0))) iFT 3 k :=
  fillna_retained_contributes_zero
    ⟨["ParkID", "Name", "FacilityType", "FacilityCount"],
      [[Cell.num 1, Cell.str "S", Cell.str "Playground", Cell.missing]]⟩
    ⟨["ParkID", "Name", "FacilityType", "FacilityCount"],
      [[Cell.num 1, Cell.str "S", Cell.str "Playground", Cell.num 0]]⟩
    [Cell.num 1, Cell.str "S", Cell.str "Playground", Cell.missing]
    3 (by decide) (by decide) (by decide) (by rfl)

/-- C8: an input whose `ParkID` or `FacilityCount` column contains a
non-numeric string makes `load_and_clean_data` fail with a
type-conversion-class error — the failure happens during cleaning, with no
recovery. -/
theorem nonnumeric_fails_type_conversion (t : RawTable) (r : List Cell)
    (iPID iFC : Nat)
    (hPID : colIdx t.header "ParkID" = some iPID)
    (hFC : colIdx t.header "FacilityCount" = some iFC)
    (hr : r ∈ t.rows)
    (hs : (∃ s, r.getD iPID .missing = .str s) ∨ (∃ s, r.getD iFC .missing = .str s)) :
    load_and_clean_data t = .error .typeConversionError := by
  have hmap : mapE (cleanRow iPID iFC) t.rows = .error .typeConversionError := by
    cases hcr : cleanRow iPID iFC r with
    | ok x => exact absurd hcr (cleanRow_str_not_ok hs x)
    | error e =>
      have he := cleanRow_error_eq hcr
      subst he
      exact mapE_error_of_mem hcr hr (fun x e' hx => cleanRow_error_eq hx)
  simp only [load_and_clean_data, hFC, hPID, hmap]

/-- C8 witness: a concrete table whose count column holds the string
"three". -/
theorem nonnumeric_fails_type_conversion_witness :
    load_and_clean_data
        ⟨["ParkID", "Name", "FacilityType", "FacilityCount"],
          [[Cell.num 1, Cell.str "S", Cell.str "Playground", Cell.str "three"]]⟩ =
      .error .typeConversionError :=
  nonnumeric_fails_type_conversion
    ⟨["ParkID", "Name", "FacilityType", "FacilityCount"],
      [[Cell.num 1, Cell.str "S", Cell.str "Playground", Cell.str "three"]]⟩
    [Cell.num 1, Cell.str "S", Cell.str "Playground", Cell.str "three"]
    0 3 (by decide) (by decide) (by decide) (Or.inr ⟨"three", by decide⟩)

/-- C9 counterexample: a table lacking the required `FacilityCount` column
(but with rows of data) already fails inside `load_and_clean_data` — a
KeyError-class condition raised by the `fillna` column access during
cleaning — so the failure is not deferred to the point where aggregation
is attempted. -/
theorem missing_column_fails_during_cleaning :
    load_and_clean_data
        ⟨["ParkID", "Name", "FacilityType"],
          [[Cell.num 1, Cell.str "Stanley Park", Cell.str "Playground"]]⟩ =
      .error (.keyError "FacilityCount") := by rfl

/-- C9 (amended): where a missing required column actually surfaces.
A table without `FacilityCount` (and then without `ParkID`) fails during
cleaning with a KeyError-class condition naming that column; cleaning
never consults `Name` or `FacilityType`, so with well-formed `ParkID` and
`FacilityCount` data it succeeds even when those columns are absent, and
the KeyError for a missing `Name`/`FacilityType` is raised only when the
aggregation that groups by it resolves its columns. -/
theorem missing_column_failure_points (t : RawTable) :
    ("FacilityCount" ∉ t.header →
      load_and_clean_data t = .error (.keyError "FacilityCount")) ∧
    ("FacilityCount" ∈ t.header → "ParkID" ∉ t.header →
      load_and_clean_data t = .error (.keyError "ParkID")) ∧
    (∀ iPID iFC, colIdx t.header "ParkID" = some iPID →
      colIdx t.header "FacilityCount" = some iFC →
      (∀ r ∈ t.rows, (∃ n, r.getD iPID .missing = Cell.num n) ∧ iFC < r.length ∧
        ((∃ m, r.getD iFC .missing = Cell.num m) ∨ r.getD iFC .missing = .missing)) →
      ∃ t', load_and_clean_data t = .ok t') ∧
    (∀ t', load_and_clean_data t = .ok t' →
      ("FacilityType" ∉ t.header →
        groupbyColumns t' "FacilityType" "FacilityCount" =
          .error (.keyError "FacilityType")) ∧
      ("Name" ∉ t.header →
        groupbyColumns t' "Name" "FacilityType" = .error (.keyError "Name"))) := by
  refine ⟨?_, ?_, ?_, ?_⟩
  · intro hno
    simp only [load_and_clean_data, colIdx_eq_none hno]
  · intro hyes hno
    obtain ⟨iFC, hFC⟩ := colIdx_isSome hyes
    simp only [load_and_clean_data, hFC, colIdx_eq_none hno]
  · intro iPID iFC hPID hFC hall
    obtain ⟨rows, hrows⟩ := mapE_ok_of_all
      (fun r hr => cleanRow_ok_of (hall r hr).1 (hall r hr).2.1 (hall r hr).2.2)
    exact ⟨⟨t.header, dropDuplicates rows⟩,
      by simp only [load_and_clean_data, hFC, hPID, hrows]⟩
  · intro t' ht'
    obtain ⟨iFC, iPID, rows, _, _, _, rfl⟩ := load_ok_elim ht'
    constructor
    · intro hno
      simp only [groupbyColumns, colIdx_eq_none hno]
    · intro hno
      simp only [groupbyColumns, colIdx_eq_none hno]

/-- C9 witness run: a concrete table without a `Name` column passes
cleaning unchanged, and the diversity aggregation's column resolution then
fails with the KeyError naming `Name`. -/
theorem missing_name_fails_at_aggregation_eval :
    load_and_clean_data
        ⟨["ParkID", "FacilityType", "FacilityCount"],
          [[Cell.num 1, Cell.str "Playground", Cell.num 2]]⟩ =
      .ok ⟨["ParkID", "FacilityType", "FacilityCount"],
          [[Cell.num 1, Cell.str "Playground", Cell.num 2]]⟩ ∧
    groupbyColumns
        ⟨["ParkID", "FacilityType", "FacilityCount"],
          [[Cell.num 1, Cell.str "Playground", Cell.num 2]]⟩ "Name" "FacilityType" =
      .error (.keyError "Name") := ⟨by rfl, by rfl⟩

/-- C10 counterexample: a successful run writes three image files, not
four. -/
theorem main_artifacts_not_four : ¬ mainArtifacts.length = 4 := by decide

/-- C10 (amended): a successful run writes exactly three image artifacts,
with distinct fixed names: the facility-distribution bar chart, the
park-diversity bar chart and the facility-correlation heatmap. -/
theorem main_artifacts_three :
    mainArtifacts =
      ["facility_distribution.png", "park_diversity.png", "facility_correlation.png"] ∧
    mainArtifacts.length = 3 ∧ mainArtifacts.Nodup := by decide

/-! ## Facts about the correlation computation -/

theorem zipWith_mul_comm (xs ys : List Int) :
    List.zipWith (· * ·) xs ys = List.zipWith (· * ·) ys xs := by
  rw [List.zipWith_comm]
  have h : (fun (b a : Int) => a * b) = (· * ·) := by
    funext a b
    exact mul_comm _ _
  rw [h]

theorem covNum_comm {xs ys : List Int} (hlen : xs.length = ys.length) :
    covNum xs ys = covNum ys xs := by
  unfold covNum
  rw [hlen, zipWith_mul_comm, mul_comm xs.sum]

theorem sq_sum_le_length_mul_sum_sq :
    ∀ xs : List Int, xs.sum ^ 2 ≤ (xs.length : Int) * (xs.map (fun x => x * x)).sum := by
  intro xs
  induction xs with
  | nil => simp
  | cons x l ih =>
    by_cases hl : l = []
    · subst hl
      simp [pow_two]
    · have hn : (1 : Int) ≤ (l.length : Int) := by
        exact_mod_cast List.length_pos.mpr hl
      have hn0 : (0 : Int) ≤ (l.length : Int) := le_trans zero_le_one hn
      have h1 : 0 ≤ ((l.length : Int) * x - l.sum) ^ 2 := sq_nonneg _
      have h2 := mul_le_mul_of_nonneg_left ih hn0
      simp only [List.sum_cons, List.map_cons, List.length_cons]
      push_cast
      nlinarith [ih, h1, h2, hn]

theorem varNum_nonneg (xs : List Int) : 0 ≤ varNum xs := by
  unfold varNum covNum
  rw [List.zipWith_same, sub_nonneg, ← pow_two]
  exact sq_sum_le_length_mul_sum_sq xs

theorem varNum_replicate (n : Nat) (c : Int) : varNum (List.replicate n c) = 0 := by
  simp [varNum, covNum, List.zipWith_same, List.map_replicate, List.sum_replicate,
    nsmul_eq_mul]
  ring

theorem pearson_comm {xs ys : List Int} (hlen : xs.length = ys.length) :
    pearson xs ys = pearson ys xs := by
  unfold pearson
  have hc : covNum xs ys = covNum ys xs := covNum_comm hlen
  by_cases h1 : varNum xs = 0 <;> by_cases h2 : varNum ys = 0 <;>
    simp [h1, h2, hc, mul_comm]

theorem pearson_self {xs : List Int} (h : varNum xs ≠ 0) :
    pearson xs xs = some 1 := by
  unfold pearson
  rw [if_neg (by simpa using h)]
  have hnn : (0 : ℝ) ≤ ((varNum xs : Int) : ℝ) := by
    exact_mod_cast varNum_nonneg xs
  have hne : ((varNum xs : Int) : ℝ) ≠ 0 := by exact_mod_cast h
  rw [Real.mul_self_sqrt hnn, show covNum xs xs = varNum xs from rfl, div_self hne]

/-! ## Claim theorems: correlation matrix -/

/-- C4: every entry of the facility correlation matrix is symmetric in its
two facility types, and the diagonal entry of a facility type whose pivot
column has non-zero variance is exactly 1. -/
theorem analyze_facility_correlation_symm_diag (t : List CRow) (f g : String) :
    analyze_facility_correlation t f g = analyze_facility_correlation t g f ∧
    (varNum (pivotColumn t f) ≠ 0 →
      analyze_facility_correlation t f f = some 1) := by
  constructor
  · exact pearson_comm (by simp [pivotColumn])
  · intro h
    exact pearson_self h

/-- C4 witness: a concrete two-park table whose type-"a" column is [0, 1],
of non-zero variance; its diagonal correlation is 1 and the off-diagonal
entries are symmetric. -/
theorem facility_correlation_diag_witness :
    varNum (pivotColumn [⟨1, "p", "a", 0⟩, ⟨2, "q", "a", 1⟩] "a") ≠ 0 ∧
    (analyze_facility_correlation [⟨1, "p", "a", 0⟩, ⟨2, "q", "a", 1⟩] "a" "b" =
        analyze_facility_correlation [⟨1, "p", "a", 0⟩, ⟨2, "q", "a", 1⟩] "b" "a" ∧
      (varNum (pivotColumn [⟨1, "p", "a", 0⟩, ⟨2, "q", "a", 1⟩] "a") ≠ 0 →
        analyze_facility_correlation [⟨1, "p", "a", 0⟩, ⟨2, "q", "a", 1⟩] "a" "a" =
          some 1)) :=
  ⟨by decide, analyze_facility_correlation_symm_diag
    [⟨1, "p", "a", 0⟩, ⟨2, "q", "a", 1⟩] "a" "b"⟩

/-- C5: when a facility type's pivot column has zero variance, every
correlation-matrix entry involving that type — in either position,
including the diagonal — is NaN. -/
theorem analyze_facility_correlation_zero_variance (t : List CRow) (f g : String)
    (h : varNum (pivotColumn t f) = 0) :
    analyze_facility_correlation t f g = none ∧
    analyze_facility_correlation t g f = none := by
  unfold analyze_facility_correlation pearson
  exact ⟨by rw [if_pos (Or.inl h)], by rw [if_pos (Or.inr h)]⟩

/-- C5 witness: a single-park table — its lone pivot column [5] is
constant, so its variance is zero and both entries involving type "a" are
NaN. -/
theorem facility_correlation_zero_variance_witness :
    varNum (pivotColumn [⟨1, "p", "a", 5⟩] "a") = 0 ∧
    (analyze_facility_correlation [⟨1, "p", "a", 5⟩] "a" "b" = none ∧
      analyze_facility_correlation [⟨1, "p", "a", 5⟩] "b" "a" = none) :=
  ⟨by decide, analyze_facility_correlation_zero_variance
    [⟨1, "p", "a", 5⟩] "a" "b" (by decide)⟩
